import Mathlib

/-!
Shallow embedding of the hotel-booking core (Django app `main`): the entity
store (models.py), the availability query (`RoomManager.get_available_rooms`),
and the booking / review operations of views.py
(`BookingCreateView`, `confirm_booking_view`, `BookingDeleteView`,
`update_booking_view`, `ReviewCreateView`, `ReviewListView`) together with the
validation done by forms.py (`BookingCreateForm`, `BookingUpdateForm`,
`ReviewForm` model validators).

Modelling conventions:
* dates are integer day numbers (`Int`); `(check_out - check_in).days` becomes
  plain subtraction;
* `FloatField` prices and costs are modelled as exact rationals (`Rat`);
* Django rows are Lean structures held in lists inside a `Store`;
* the free-text `change_description` strings are modelled by the inductive
  `ChangeDesc`, keeping exactly the information the source interpolates into
  them (the old/new cost for date updates);
* every mutating view returns `(newStore, Option Reason)`: `none` means the
  request succeeded, `some r` means the request was rejected with reason `r`
  and the returned store is the input store (Django re-renders the form
  without saving anything in those branches).
-/

/-- models.py `BookingStatus` text choices. -/
inductive BStatus
  | Pending
  | Confirmed
  | Cancelled
deriving DecidableEq, Repr

/-- models.py `ReviewStatus` text choices. -/
inductive RStatus
  | pending
  | approved
  | rejected
deriving DecidableEq, Repr

/-- The information content of the `change_description` strings written by
views.py; `datesChanged` carries the old cost and new cost that
`update_booking_view` interpolates into its description. -/
inductive ChangeDesc
  | created
  | confirmedDesc
  | cancelledDesc
  | datesChanged (oldCost newCost : Rat)
deriving DecidableEq, Repr

/-- Rejection reasons: which branch of a view re-rendered without saving. -/
inductive Reason
  | notFound
  | roomUnavailable
  | selfBooking
  | pastCheckIn
  | badDateOrder
  | conflict
  | forbidden
  | badRating
  | alreadyReviewed
deriving DecidableEq, Repr

/-- models.py `User` (the fields the core reads). -/
structure User where
  id : Nat
  fullName : String
  email : String
deriving DecidableEq, Repr

/-- views.py computes the actor label as
`request.user.get_full_name() or request.user.email`. -/
def displayName (u : User) : String :=
  if u.fullName = "" then u.email else u.fullName

/-- models.py `Room` (the fields the core reads). -/
structure Room where
  id : Nat
  ownerId : Nat
  price : Rat
  address : String
  isActive : Bool
deriving DecidableEq, Repr

/-- models.py `Booking`. -/
structure Booking where
  id : Nat
  guestId : Nat
  roomId : Nat
  checkIn : Int
  checkOut : Int
  status : BStatus
  totalCost : Rat
deriving DecidableEq, Repr

/-- models.py `BookingHistory` (`booking` is a OneToOneField; `old_status`
is blank `none` for the creation record). -/
structure HistRec where
  bookingId : Nat
  oldStatus : Option BStatus
  newStatus : BStatus
  changedBy : String
  desc : ChangeDesc
deriving DecidableEq, Repr

/-- models.py `Review`: note that `booking`, `guest` and `room` are all
`OneToOneField`s, i.e. each carries a uniqueness constraint. -/
structure Review where
  id : Nat
  bookingId : Nat
  guestId : Nat
  roomId : Nat
  rating : Int
  text : String
  status : RStatus
deriving DecidableEq, Repr

/-- The entity store: the table rows the core reads and writes. -/
structure Store where
  rooms : List Room
  bookings : List Booking
  history : List HistRec
  reviews : List Review
deriving DecidableEq, Repr

/-- `status__in=[CONFIRMED, PENDING]` as used by every conflict filter. -/
def statusActive (st : BStatus) : Bool :=
  st == BStatus.Confirmed || st == BStatus.Pending

/-- `get_object_or_404(Room, pk=rid)` membership by primary key. -/
def findRoom (s : Store) (rid : Nat) : Option Room :=
  s.rooms.find? (fun r => r.id == rid)

/-- `get_object_or_404(Room, pk=rid, is_active=True)` as in
`BookingCreateView.dispatch`. -/
def findRoomActive (s : Store) (rid : Nat) : Option Room :=
  s.rooms.find? (fun r => r.id == rid && r.isActive)

/-- `get_object_or_404(Booking, pk=bid)`. -/
def findBooking (s : Store) (bid : Nat) : Option Booking :=
  s.bookings.find? (fun b => b.id == bid)

/-- `get_object_or_404(Booking, pk=bid, guest=request.user)` (also the
queryset filter of `BookingDeleteView`). -/
def findGuestBooking (s : Store) (bid : Nat) (uid : Nat) : Option Booking :=
  s.bookings.find? (fun b => b.id == bid && b.guestId == uid)

/-- The conflict filter shared by `BookingCreateView.form_valid` and
`update_booking_view`:
`Booking.objects.filter(room=.., check_in_date__lte=out, check_out_date__gte=inn,
status__in=[CONFIRMED, PENDING])`, optionally `.exclude(pk=..)`. -/
def hasConflict (bookings : List Booking) (rid : Nat)
    (check_in check_out : Int) (excludeId : Option Nat) : Bool :=
  bookings.any fun b =>
    b.roomId == rid &&
    decide (b.checkIn ≤ check_out) && decide (b.checkOut ≥ check_in) &&
    statusActive b.status &&
    !(excludeId == some b.id)

/-- `booking.save()` after mutating a row fetched by pk: write the new row
back at its primary key. -/
def saveBooking (bookings : List Booking) (bid : Nat) (b : Booking) :
    List Booking :=
  bookings.map fun x => if x.id == bid then b else x

/-- `BookingHistory.objects.update_or_create(booking=.., defaults=..)`
(and the `get_or_create`-then-overwrite-every-field pattern of
`confirm_booking_view`, which has the same net effect): replace the row
keyed by the booking, or insert it. `booking` is a OneToOneField, so at
most one row can match. -/
def histUpdateOrCreate (hist : List HistRec) (bid : Nat) (rec : HistRec) :
    List HistRec :=
  match hist with
  | [] => [rec]
  | h :: t =>
    if h.bookingId == bid then rec :: t
    else h :: histUpdateOrCreate t bid rec

/-- The `get_or_create` of `update_booking_view`: when the row exists only
`change_description` and `changed_by` are overwritten (the stored statuses
are kept); when it does not, a fresh row with `old_status = new_status =
booking.status` is created. -/
def histTouchDates (hist : List HistRec) (bid : Nat) (st : BStatus)
    (actor : String) (oldCost newCost : Rat) : List HistRec :=
  match hist with
  | [] => [⟨bid, some st, st, actor, ChangeDesc.datesChanged oldCost newCost⟩]
  | h :: t =>
    if h.bookingId == bid then
      { h with changedBy := actor,
               desc := ChangeDesc.datesChanged oldCost newCost } :: t
    else h :: histTouchDates t bid st actor oldCost newCost

/-- Python `str.strip()` / Django case-insensitive matching, modelled at the
character level so that they compute: lower-case every character. -/
def strLower (s : String) : String :=
  ⟨s.data.map Char.toLower⟩

/-- Python `str.strip()`: drop whitespace from both ends. -/
def strTrim (s : String) : String :=
  ⟨((s.data.dropWhile Char.isWhitespace).reverse.dropWhile
      Char.isWhitespace).reverse⟩

/-- models.py `RoomManager.get_available_rooms(address, check_in, check_out)`:
trim the destination (empty means `Room.objects.none()`), keep active rooms
whose address matches case-insensitively, drop every room carrying a
Pending/Confirmed booking overlapping the range, order ascending by
`price_per_night`. -/
def get_available_rooms (s : Store) (address : String)
    (check_in check_out : Int) : List Room :=
  let addressNormalized := strTrim address
  if addressNormalized = "" then []
  else
    let rooms := s.rooms.filter fun r =>
      r.isActive && (strLower r.address == strLower addressNormalized)
    let bookings := s.bookings.filter fun b =>
      rooms.any (fun r => r.id == b.roomId) &&
      decide (b.checkIn ≤ check_out) && decide (b.checkOut ≥ check_in) &&
      statusActive b.status
    let available := rooms.filter fun r =>
      !(bookings.any fun b => b.roomId == r.id)
    available.mergeSort (fun a b => decide (a.price ≤ b.price))

/-- `BookingCreateView` (dispatch + `BookingCreateForm` validation +
`form_valid`): resolve the active room or 404, reject self-booking, reject a
check-in in the past (`clean_check_in_date`), reject `check_in >= check_out`
(`clean`), reject an overlap with a Pending/Confirmed booking on the room;
otherwise persist `Booking(status=PENDING, total_cost = price * nights)` and
`BookingHistory.objects.create(old_status='', new_status=PENDING,
changed_by='SYSTEM')`. -/
def createBooking (s : Store) (today : Int) (guest : User) (rid : Nat)
    (check_in check_out : Int) (newBid : Nat) : Store × Option Reason :=
  match findRoomActive s rid with
  | none => (s, some Reason.roomUnavailable)
  | some room =>
    if room.ownerId == guest.id then (s, some Reason.selfBooking)
    else if decide (check_in < today) then (s, some Reason.pastCheckIn)
    else if decide (check_in ≥ check_out) then (s, some Reason.badDateOrder)
    else if hasConflict s.bookings rid check_in check_out none then
      (s, some Reason.conflict)
    else
      ({ s with
          bookings := s.bookings ++
            [⟨newBid, guest.id, rid, check_in, check_out, BStatus.Pending,
              room.price * ((check_out - check_in : Int) : Rat)⟩],
          history := s.history ++
            [⟨newBid, none, BStatus.Pending, "SYSTEM", ChangeDesc.created⟩] },
        none)

/-- views.py `confirm_booking_view`: fetch the booking by pk, reject an actor
who is neither the guest nor the room owner, then set the status to
Confirmed regardless of the current status (no guard) and overwrite/create
the single history row. -/
def confirmBooking (s : Store) (actor : User) (bid : Nat) :
    Store × Option Reason :=
  match findBooking s bid with
  | none => (s, some Reason.notFound)
  | some b =>
    match findRoom s b.roomId with
    | none => (s, some Reason.notFound)
    | some room =>
      if b.guestId != actor.id && room.ownerId != actor.id then
        (s, some Reason.forbidden)
      else
        ({ s with
            bookings := saveBooking s.bookings bid { b with status := BStatus.Confirmed },
            history := histUpdateOrCreate s.history bid
              ⟨bid, some b.status, BStatus.Confirmed, displayName actor,
                ChangeDesc.confirmedDesc⟩ },
          none)

/-- views.py `BookingDeleteView.delete`: the queryset is filtered to the
requesting guest's bookings (a foreign booking 404s); the row is not deleted
but its status is set to Cancelled and the history row is
`update_or_create`d. -/
def cancelBooking (s : Store) (actor : User) (bid : Nat) :
    Store × Option Reason :=
  match findGuestBooking s bid actor.id with
  | none => (s, some Reason.notFound)
  | some b =>
    ({ s with
        bookings := saveBooking s.bookings bid { b with status := BStatus.Cancelled },
        history := histUpdateOrCreate s.history bid
          ⟨bid, some b.status, BStatus.Cancelled, displayName actor,
            ChangeDesc.cancelledDesc⟩ },
      none)

/-- views.py `update_booking_view` with `BookingUpdateForm` (which inherits
the `BookingCreateForm` validation): fetch the booking by pk and guest or
404, reject a past check-in, reject `check_in >= check_out`, reject a
conflict with a Pending/Confirmed booking on the room excluding the booking
itself; otherwise recompute the cost and save dates and cost together, then
touch the history row with the old-cost/new-cost description. -/
def updateBookingDates (s : Store) (today : Int) (actor : User) (bid : Nat)
    (check_in check_out : Int) : Store × Option Reason :=
  match findGuestBooking s bid actor.id with
  | none => (s, some Reason.notFound)
  | some b =>
    if decide (check_in < today) then (s, some Reason.pastCheckIn)
    else if decide (check_in ≥ check_out) then (s, some Reason.badDateOrder)
    else if hasConflict s.bookings b.roomId check_in check_out (some bid) then
      (s, some Reason.conflict)
    else
      match findRoom s b.roomId with
      | none => (s, some Reason.notFound)
      | some room =>
        let newCost : Rat := room.price * ((check_out - check_in : Int) : Rat)
        ({ s with
            bookings := saveBooking s.bookings bid
              { b with checkIn := check_in, checkOut := check_out,
                       totalCost := newCost },
            history := histTouchDates s.history bid b.status
              (displayName actor) b.totalCost newCost },
          none)

/-- views.py `ReviewCreateView` with `ReviewForm` (model validators bound the
rating to 1..5): fetch the booking by pk and guest or 404, reject the room
owner reviewing their own room, reject an out-of-range rating; the save hits
the three OneToOne uniqueness constraints of `Review` (booking, guest, room)
and any `IntegrityError` is caught and turned into the user-facing
already-reviewed rejection; otherwise a Pending review row is inserted. -/
def createReview (s : Store) (actor : User) (bid : Nat) (rating : Int)
    (text : String) (newRid : Nat) : Store × Option Reason :=
  match findGuestBooking s bid actor.id with
  | none => (s, some Reason.notFound)
  | some b =>
    match findRoom s b.roomId with
    | none => (s, some Reason.notFound)
    | some room =>
      if room.ownerId == actor.id then (s, some Reason.forbidden)
      else if decide (rating < 1) || decide (rating > 5) then
        (s, some Reason.badRating)
      else if s.reviews.any (fun r =>
          r.bookingId == b.id || r.guestId == actor.id || r.roomId == room.id)
        then (s, some Reason.alreadyReviewed)
      else
        ({ s with reviews := s.reviews ++
            [⟨newRid, b.id, actor.id, room.id, rating, text, RStatus.pending⟩] },
          none)

/-- `user.is_owner` of models.py: the user owns at least one room. -/
def isOwnerUser (s : Store) (uid : Nat) : Bool :=
  s.rooms.any fun r => r.ownerId == uid

/-- The join `room__room_owner = user` on a review row. -/
def reviewRoomOwnedBy (s : Store) (r : Review) (uid : Nat) : Bool :=
  s.rooms.any fun rm => rm.id == r.roomId && rm.ownerId == uid

/-- views.py `ReviewListView.get_queryset`: with a `room` GET parameter only
the approved reviews of that room; otherwise an authenticated user owning at
least one room gets the reviews on their rooms, any other authenticated user
gets their own reviews, and an anonymous viewer gets the approved reviews. -/
def reviewListQuery (s : Store) (viewer : Option User)
    (roomParam : Option Nat) : List Review :=
  match roomParam with
  | some rid =>
    s.reviews.filter fun r => r.roomId == rid && r.status == RStatus.approved
  | none =>
    match viewer with
    | some u =>
      if isOwnerUser s u.id then
        s.reviews.filter fun r => reviewRoomOwnedBy s r u.id
      else
        s.reviews.filter fun r => r.guestId == u.id
    | none => s.reviews.filter fun r => r.status == RStatus.approved

/-- views.py `RoomDetailView.get_context_data`: the reviews shown on a room
page are the approved ones of that room, for every viewer. -/
def roomDetailReviews (s : Store) (rid : Nat) : List Review :=
  s.reviews.filter fun r => r.roomId == rid && r.status == RStatus.approved

/-- The no-overlap invariant of spec sections 3 and 8: no two distinct
bookings on the same room that are both Pending/Confirmed have overlapping
date ranges, with overlap meaning
`check_in ≤ other.check_out AND check_out ≥ other.check_in`. -/
def ActiveNoOverlap (s : Store) : Prop :=
  ∀ b1 ∈ s.bookings, ∀ b2 ∈ s.bookings,
    b1.id ≠ b2.id → b1.roomId = b2.roomId →
    statusActive b1.status = true → statusActive b2.status = true →
    ¬(b1.checkIn ≤ b2.checkOut ∧ b1.checkOut ≥ b2.checkIn)

instance (s : Store) : Decidable (ActiveNoOverlap s) := by
  unfold ActiveNoOverlap; infer_instance

/-- Primary keys of `Booking` rows are unique (Django `AutoField`). -/
def WFBookingIds (s : Store) : Prop :=
  (s.bookings.map (fun b => b.id)).Nodup

/-- Store states reachable through the core operations, starting from any
room inventory with no bookings, history or reviews (room management is
presentation-layer glue outside the booking core). -/
inductive Reachable : Store → Prop
  | init (rooms : List Room) : Reachable ⟨rooms, [], [], []⟩
  | createStep {s s' : Store} (today : Int) (guest : User) (rid : Nat)
      (ci co : Int) (bid : Nat) : Reachable s →
      createBooking s today guest rid ci co bid = (s', none) → Reachable s'
  | confirmStep {s s' : Store} (actor : User) (bid : Nat) : Reachable s →
      confirmBooking s actor bid = (s', none) → Reachable s'
  | cancelStep {s s' : Store} (actor : User) (bid : Nat) : Reachable s →
      cancelBooking s actor bid = (s', none) → Reachable s'
  | updateStep {s s' : Store} (today : Int) (actor : User) (bid : Nat)
      (ci co : Int) : Reachable s →
      updateBookingDates s today actor bid ci co = (s', none) → Reachable s'
  | reviewStep {s s' : Store} (actor : User) (bid : Nat) (rating : Int)
      (text : String) (rvid : Nat) : Reachable s →
      createReview s actor bid rating text rvid = (s', none) → Reachable s'

/-- Demo guest used by the concrete traces below. -/
def uGuest : User := ⟨1, "Alice A", "a@example.com"⟩

/-- Demo room owner used by the concrete traces below. -/
def uOwner : User := ⟨2, "Bob B", "b@example.com"⟩

/-- Demo room, owned by `uOwner`, 100 per night. -/
def roomX : Room := ⟨10, 2, 100, "moscow", true⟩

/-- Trace refuting the full C1 claim: an empty store with one room. -/
def cexS0 : Store := ⟨[roomX], [], [], []⟩

/-- The guest books the room for days 1..5 (booking 1, Pending). -/
def cexS1 : Store := (createBooking cexS0 0 uGuest 10 1 5 1).1

/-- The guest cancels booking 1. -/
def cexS2 : Store := (cancelBooking cexS1 uGuest 1).1

/-- The guest books the room again, days 3..6 (booking 2, Pending); no
conflict is reported because booking 1 is Cancelled. -/
def cexS3 : Store := (createBooking cexS2 0 uGuest 10 3 6 2).1

/-- The guest re-confirms the cancelled booking 1: `confirm_booking_view`
has no status guard and no conflict re-check, so bookings 1 and 2 are now
both active and overlap on days 3..5. -/
def cexS4 : Store := (confirmBooking cexS3 uGuest 1).1

theorem createBooking_ok {s : Store} {today : Int} {guest : User} {rid : Nat}
    {ci co : Int} {bid : Nat} {s' : Store}
    (h : createBooking s today guest rid ci co bid = (s', none)) :
    ∃ room, findRoomActive s rid = some room ∧
      room.ownerId ≠ guest.id ∧ today ≤ ci ∧ ci < co ∧
      hasConflict s.bookings rid ci co none = false ∧
      s' = { s with
        bookings := s.bookings ++
          [⟨bid, guest.id, rid, ci, co, BStatus.Pending,
            room.price * ((co - ci : Int) : Rat)⟩],
        history := s.history ++
          [⟨bid, none, BStatus.Pending, "SYSTEM", ChangeDesc.created⟩] } := by
  unfold createBooking at h
  cases hfind : findRoomActive s rid with
  | none => simp only [hfind] at h; simp at h
  | some room =>
    simp only [hfind] at h
    refine ⟨room, rfl, ?_⟩
    by_cases ho : (room.ownerId == guest.id) = true
    · rw [if_pos ho] at h; simp at h
    · rw [if_neg ho] at h
      by_cases h1 : (decide (ci < today)) = true
      · rw [if_pos h1] at h; simp at h
      · rw [if_neg h1] at h
        by_cases h2 : (decide (ci ≥ co)) = true
        · rw [if_pos h2] at h; simp at h
        · rw [if_neg h2] at h
          by_cases h3 : hasConflict s.bookings rid ci co none = true
          · rw [if_pos h3] at h; simp at h
          · rw [if_neg h3] at h
            simp only [Prod.mk.injEq] at h
            have hno : ¬ ci < today := by simpa using h1
            have hord : ¬ ci ≥ co := by simpa using h2
            exact ⟨by simpa using ho, by omega, by omega,
              by simpa using h3, h.1.symm⟩

theorem createBooking_fail {s : Store} {today : Int} {guest : User} {rid : Nat}
    {ci co : Int} {bid : Nat} {s' : Store} {r : Reason}
    (h : createBooking s today guest rid ci co bid = (s', some r)) : s' = s := by
  unfold createBooking at h
  cases hfind : findRoomActive s rid with
  | none => simp only [hfind, Prod.mk.injEq] at h; exact h.1.symm
  | some room =>
    simp only [hfind] at h
    split_ifs at h <;> simp only [Prod.mk.injEq] at h <;>
      first | exact h.1.symm | simp at h

theorem cancelBooking_ok {s : Store} {actor : User} {bid : Nat} {s' : Store}
    (h : cancelBooking s actor bid = (s', none)) :
    ∃ b, findGuestBooking s bid actor.id = some b ∧
      s' = { s with
        bookings := saveBooking s.bookings bid { b with status := BStatus.Cancelled },
        history := histUpdateOrCreate s.history bid
          ⟨bid, some b.status, BStatus.Cancelled, displayName actor,
            ChangeDesc.cancelledDesc⟩ } := by
  unfold cancelBooking at h
  cases hfind : findGuestBooking s bid actor.id with
  | none => simp only [hfind] at h; simp at h
  | some b =>
    simp only [hfind, Prod.mk.injEq] at h
    exact ⟨b, rfl, h.1.symm⟩

theorem confirmBooking_ok {s : Store} {actor : User} {bid : Nat} {s' : Store}
    (h : confirmBooking s actor bid = (s', none)) :
    ∃ b room, findBooking s bid = some b ∧ findRoom s b.roomId = some room ∧
      (b.guestId = actor.id ∨ room.ownerId = actor.id) ∧
      s' = { s with
        bookings := saveBooking s.bookings bid { b with status := BStatus.Confirmed },
        history := histUpdateOrCreate s.history bid
          ⟨bid, some b.status, BStatus.Confirmed, displayName actor,
            ChangeDesc.confirmedDesc⟩ } := by
  unfold confirmBooking at h
  cases hfind : findBooking s bid with
  | none => simp only [hfind] at h; simp at h
  | some b =>
    simp only [hfind] at h
    cases hroom : findRoom s b.roomId with
    | none => simp only [hroom] at h; simp at h
    | some room =>
      simp only [hroom] at h
      by_cases hperm : (b.guestId != actor.id && room.ownerId != actor.id) = true
      · rw [if_pos hperm] at h; simp at h
      · rw [if_neg hperm] at h
        simp only [Prod.mk.injEq] at h
        refine ⟨b, room, rfl, hroom, ?_, h.1.symm⟩
        simp only [Bool.and_eq_true, bne_iff_ne, ne_eq, not_and, not_not] at hperm
        by_cases hg : b.guestId = actor.id
        · exact Or.inl hg
        · exact Or.inr (hperm hg)

theorem updateBookingDates_ok {s : Store} {today : Int} {actor : User}
    {bid : Nat} {ci co : Int} {s' : Store}
    (h : updateBookingDates s today actor bid ci co = (s', none)) :
    ∃ b room, findGuestBooking s bid actor.id = some b ∧
      today ≤ ci ∧ ci < co ∧
      hasConflict s.bookings b.roomId ci co (some bid) = false ∧
      findRoom s b.roomId = some room ∧
      s' = { s with
        bookings := saveBooking s.bookings bid
          { b with checkIn := ci, checkOut := co,
                   totalCost := room.price * ((co - ci : Int) : Rat) },
        history := histTouchDates s.history bid b.status
          (displayName actor) b.totalCost (room.price * ((co - ci : Int) : Rat)) } := by
  unfold updateBookingDates at h
  cases hfind : findGuestBooking s bid actor.id with
  | none => simp only [hfind] at h; simp at h
  | some b =>
    simp only [hfind] at h
    by_cases h1 : (decide (ci < today)) = true
    · rw [if_pos h1] at h; simp at h
    · rw [if_neg h1] at h
      by_cases h2 : (decide (ci ≥ co)) = true
      · rw [if_pos h2] at h; simp at h
      · rw [if_neg h2] at h
        by_cases h3 : hasConflict s.bookings b.roomId ci co (some bid) = true
        · rw [if_pos h3] at h; simp at h
        · rw [if_neg h3] at h
          cases hroom : findRoom s b.roomId with
          | none => simp only [hroom] at h; simp at h
          | some room =>
            simp only [hroom, Prod.mk.injEq] at h
            have hno : ¬ ci < today := by simpa using h1
            have hord : ¬ ci ≥ co := by simpa using h2
            exact ⟨b, room, rfl, by omega, by omega, by simpa using h3, hroom,
              h.1.symm⟩

theorem findGuestBooking_spec {s : Store} {bid uid : Nat} {b : Booking}
    (h : findGuestBooking s bid uid = some b) :
    b ∈ s.bookings ∧ b.id = bid ∧ b.guestId = uid := by
  have hp := List.find?_some h
  have hm := List.mem_of_find?_eq_some h
  simp only [Bool.and_eq_true, beq_iff_eq] at hp
  exact ⟨hm, hp.1, hp.2⟩

theorem findBooking_spec {s : Store} {bid : Nat} {b : Booking}
    (h : findBooking s bid = some b) : b ∈ s.bookings ∧ b.id = bid := by
  have hp := List.find?_some h
  have hm := List.mem_of_find?_eq_some h
  simp only [beq_iff_eq] at hp
  exact ⟨hm, hp⟩

theorem findRoomActive_spec {s : Store} {rid : Nat} {r : Room}
    (h : findRoomActive s rid = some r) :
    r ∈ s.rooms ∧ r.id = rid ∧ r.isActive = true := by
  have hp := List.find?_some h
  have hm := List.mem_of_find?_eq_some h
  simp only [Bool.and_eq_true, beq_iff_eq] at hp
  exact ⟨hm, hp.1, hp.2⟩

theorem hasConflict_false_elim {bs : List Booking} {rid : Nat}
    {ci co : Int} {excl : Option Nat}
    (h : hasConflict bs rid ci co excl = false) :
    ∀ b ∈ bs, b.roomId = rid → statusActive b.status = true →
      excl ≠ some b.id → ¬(b.checkIn ≤ co ∧ b.checkOut ≥ ci) := by
  intro b hb hrid hact hexcl hov
  rw [hasConflict, List.any_eq_false] at h
  have hfb := h b hb
  apply hfb
  have hx : (excl == some b.id) = false := by
    cases hxx : excl == some b.id
    · rfl
    · exact absurd (by simpa using hxx) hexcl
  simp [hrid, hact, hov.1, hov.2, hx]

theorem mem_saveBooking {bs : List Booking} {bid : Nat} {b x : Booking}
    (h : x ∈ saveBooking bs bid b) :
    ∃ a ∈ bs, x = if a.id = bid then b else a := by
  rw [saveBooking, List.mem_map] at h
  obtain ⟨a, ha, hx⟩ := h
  refine ⟨a, ha, ?_⟩
  by_cases hid : a.id = bid
  · simp [hid] at hx; simp [hid, hx.symm]
  · simp [hid] at hx ⊢; exact hx.symm

theorem createBooking_preserves {s s' : Store} {today : Int} {guest : User}
    {rid : Nat} {ci co : Int} {bid : Nat} (hinv : ActiveNoOverlap s)
    (h : createBooking s today guest rid ci co bid = (s', none)) :
    ActiveNoOverlap s' := by
  obtain ⟨room, hfindR, _, _, _, hconf, hs'⟩ := createBooking_ok h
  subst hs'
  intro b1 hb1 b2 hb2 hne hroom hact1 hact2
  simp only [List.mem_append, List.mem_singleton] at hb1 hb2
  rcases hb1 with hb1 | hb1 <;> rcases hb2 with hb2 | hb2
  · exact hinv b1 hb1 b2 hb2 hne hroom hact1 hact2
  · subst hb2
    intro hov
    exact hasConflict_false_elim hconf b1 hb1 (by simpa using hroom) hact1
      (by simp) ⟨by simpa using hov.1, by simpa using hov.2⟩
  · subst hb1
    intro hov
    exact hasConflict_false_elim hconf b2 hb2 (by simpa using hroom.symm) hact2
      (by simp) ⟨by simpa using hov.2, by simpa using hov.1⟩
  · subst hb1; subst hb2; exact absurd rfl hne

theorem cancelBooking_preserves {s s' : Store} {actor : User} {bid : Nat}
    (hinv : ActiveNoOverlap s) (h : cancelBooking s actor bid = (s', none)) :
    ActiveNoOverlap s' := by
  obtain ⟨b, hfind, hs'⟩ := cancelBooking_ok h
  subst hs'
  intro b1 hb1 b2 hb2 hne hroom hact1 hact2
  obtain ⟨a1, ha1, he1⟩ := mem_saveBooking hb1
  obtain ⟨a2, ha2, he2⟩ := mem_saveBooking hb2
  subst he1; subst he2
  by_cases h1 : a1.id = bid
  · rw [if_pos h1] at hact1; simp [statusActive] at hact1
  · by_cases h2 : a2.id = bid
    · rw [if_pos h2] at hact2; simp [statusActive] at hact2
    · rw [if_neg h1] at hne hroom hact1 ⊢
      rw [if_neg h2] at hne hroom hact2 ⊢
      exact hinv a1 ha1 a2 ha2 hne hroom hact1 hact2

theorem confirmBooking_preserves {s s' : Store} {actor : User} {bid : Nat}
    {b : Booking} (hinv : ActiveNoOverlap s) (hfind : findBooking s bid = some b)
    (hstat : b.status ≠ BStatus.Cancelled)
    (h : confirmBooking s actor bid = (s', none)) : ActiveNoOverlap s' := by
  obtain ⟨b0, room, hfind0, hroomF, hperm, hs'⟩ := confirmBooking_ok h
  rw [hfind] at hfind0
  cases hfind0
  subst hs'
  obtain ⟨hbmem, hbid⟩ := findBooking_spec hfind
  have hbact : statusActive b.status = true := by
    cases hs : b.status <;> simp [statusActive] ; exact hstat hs
  intro b1 hb1 b2 hb2 hne hroom hact1 hact2
  obtain ⟨a1, ha1, he1⟩ := mem_saveBooking hb1
  obtain ⟨a2, ha2, he2⟩ := mem_saveBooking hb2
  subst he1; subst he2
  by_cases h1 : a1.id = bid <;> by_cases h2 : a2.id = bid
  · rw [if_pos h1, if_pos h2] at hne
    exact absurd rfl hne
  · rw [if_pos h1] at hne hroom ⊢
    rw [if_neg h2] at hne hroom hact2 ⊢
    intro hov
    exact hinv b hbmem a2 ha2 (by simpa using hne)
      (by simpa using hroom) hbact hact2 (by simpa using hov)
  · rw [if_neg h1] at hne hroom hact1 ⊢
    rw [if_pos h2] at hne hroom ⊢
    intro hov
    exact hinv a1 ha1 b hbmem (by simpa using hne)
      (by simpa using hroom) hact1 hbact (by simpa using hov)
  · rw [if_neg h1] at hne hroom hact1 ⊢
    rw [if_neg h2] at hne hroom hact2 ⊢
    exact hinv a1 ha1 a2 ha2 hne hroom hact1 hact2

theorem updateBookingDates_preserves {s s' : Store} {today : Int}
    {actor : User} {bid : Nat} {ci co : Int} (hinv : ActiveNoOverlap s)
    (h : updateBookingDates s today actor bid ci co = (s', none)) :
    ActiveNoOverlap s' := by
  obtain ⟨b, room, hfind, _, _, hconf, hroomF, hs'⟩ := updateBookingDates_ok h
  subst hs'
  obtain ⟨hbmem, hbid, _⟩ := findGuestBooking_spec hfind
  intro b1 hb1 b2 hb2 hne hroom hact1 hact2
  obtain ⟨a1, ha1, he1⟩ := mem_saveBooking hb1
  obtain ⟨a2, ha2, he2⟩ := mem_saveBooking hb2
  subst he1; subst he2
  by_cases h1 : a1.id = bid <;> by_cases h2 : a2.id = bid
  · rw [if_pos h1, if_pos h2] at hne
    exact absurd rfl hne
  · rw [if_pos h1] at hne hroom ⊢
    rw [if_neg h2] at hne hroom hact2 ⊢
    intro hov
    exact hasConflict_false_elim hconf a2 ha2 (by simpa using hroom.symm) hact2
      (fun hh => h2 (Option.some.inj hh).symm)
      ⟨by simpa using hov.2, by simpa using hov.1⟩
  · rw [if_neg h1] at hne hroom hact1 ⊢
    rw [if_pos h2] at hne hroom ⊢
    intro hov
    exact hasConflict_false_elim hconf a1 ha1 (by simpa using hroom) hact1
      (fun hh => h1 (Option.some.inj hh).symm)
      ⟨by simpa using hov.1, by simpa using hov.2⟩
  · rw [if_neg h1] at hne hroom hact1 ⊢
    rw [if_neg h2] at hne hroom hact2 ⊢
    exact hinv a1 ha1 a2 ha2 hne hroom hact1 hact2

/-- C1: the claim that `ActiveNoOverlap` holds in every reachable store and
is preserved by every core operation is refuted by a concrete reachable
trace: book days 1..5, cancel, book days 3..6 (no conflict is reported
against the Cancelled booking), then re-confirm the cancelled booking —
`confirm_booking_view` has no status guard and no conflict re-check, so the
store ends with two overlapping Pending/Confirmed bookings on the room. -/
theorem claim_C1_counterexample :
    ¬ (∀ s : Store, Reachable s → ActiveNoOverlap s) := by
  intro h
  have h1 : createBooking cexS0 0 uGuest 10 1 5 1 = (cexS1, none) := rfl
  have h2 : cancelBooking cexS1 uGuest 1 = (cexS2, none) := rfl
  have h3 : createBooking cexS2 0 uGuest 10 3 6 2 = (cexS3, none) := rfl
  have h4 : confirmBooking cexS3 uGuest 1 = (cexS4, none) := rfl
  have hr : Reachable cexS4 :=
    Reachable.confirmStep uGuest 1
      (Reachable.createStep 0 uGuest 10 3 6 2
        (Reachable.cancelStep uGuest 1
          (Reachable.createStep 0 uGuest 10 1 5 1
            (Reachable.init [roomX]) h1) h2) h3) h4
  have hbad : ActiveNoOverlap cexS4 := h cexS4 hr
  revert hbad
  decide

/-- C1 amended: the no-overlap invariant is preserved by every successful
`createBooking`, `cancelBooking` and `updateBookingDates`, and by a
successful `confirmBooking` whose target booking is not Cancelled; only
confirming a Cancelled booking can break it (see the counterexample). -/
theorem claim_C1_amended (s : Store) (hinv : ActiveNoOverlap s) :
    (∀ (today : Int) (guest : User) (rid : Nat) (ci co : Int) (bid : Nat)
        (s' : Store), createBooking s today guest rid ci co bid = (s', none) →
        ActiveNoOverlap s') ∧
    (∀ (actor : User) (bid : Nat) (s' : Store),
        cancelBooking s actor bid = (s', none) → ActiveNoOverlap s') ∧
    (∀ (today : Int) (actor : User) (bid : Nat) (ci co : Int) (s' : Store),
        updateBookingDates s today actor bid ci co = (s', none) →
        ActiveNoOverlap s') ∧
    (∀ (actor : User) (bid : Nat) (b : Booking) (s' : Store),
        findBooking s bid = some b → b.status ≠ BStatus.Cancelled →
        confirmBooking s actor bid = (s', none) → ActiveNoOverlap s') :=
  ⟨fun _ _ _ _ _ _ _ h => createBooking_preserves hinv h,
   fun _ _ _ h => cancelBooking_preserves hinv h,
   fun _ _ _ _ _ _ h => updateBookingDates_preserves hinv h,
   fun _ _ _ _ hf hst h => confirmBooking_preserves hinv hf hst h⟩

/-- C1 amended, witnessed on a concrete input: creating a booking in a
one-room store with no bookings yields a store satisfying the invariant. -/
theorem claim_C1_amended_witness : ActiveNoOverlap cexS1 :=
  (claim_C1_amended cexS0 (by decide)).1 0 uGuest 10 1 5 1 cexS1 rfl

/-- C2: `get_available_rooms` returns exactly the active rooms whose address
matches the trimmed destination case-insensitively and that carry no
Pending/Confirmed booking overlapping the range, ordered ascending by
price per night; an empty trimmed destination yields the empty result. -/
theorem claim_C2 (s : Store) (address : String) (ci co : Int) :
    (∀ r : Room, r ∈ get_available_rooms s address ci co ↔
      (strTrim address ≠ "" ∧ r ∈ s.rooms ∧ r.isActive = true ∧
        strLower r.address = strLower (strTrim address) ∧
        ¬ ∃ b ∈ s.bookings, b.roomId = r.id ∧ statusActive b.status = true ∧
          b.checkIn ≤ co ∧ b.checkOut ≥ ci)) ∧
    List.Pairwise (fun a b : Room => a.price ≤ b.price)
      (get_available_rooms s address ci co) ∧
    (strTrim address = "" → get_available_rooms s address ci co = []) := by
  refine ⟨?_, ?_, ?_⟩
  · intro r
    unfold get_available_rooms
    by_cases he : strTrim address = ""
    · simp [he]
    · rw [if_neg he]
      rw [List.mem_mergeSort, List.mem_filter, List.mem_filter]
      constructor
      · rintro ⟨⟨hrmem, hract⟩, hnob⟩
        simp only [Bool.and_eq_true, beq_iff_eq] at hract
        refine ⟨he, hrmem, hract.1, hract.2, ?_⟩
        rintro ⟨b, hbmem, hbroom, hbact, hble, hbge⟩
        rw [Bool.not_eq_true', List.any_eq_false] at hnob
        refine hnob b ?_ (by simpa using hbroom)
        rw [List.mem_filter]
        refine ⟨hbmem, ?_⟩
        simp only [Bool.and_eq_true, List.any_eq_true, decide_eq_true_eq]
        exact ⟨⟨⟨⟨r, List.mem_filter.mpr ⟨hrmem, by simp [hract.1, hract.2]⟩,
          by simpa using hbroom.symm⟩, hble⟩, hbge⟩, hbact⟩
      · rintro ⟨-, hrmem, hract, haddr, hnoov⟩
        refine ⟨⟨hrmem, by simp [hract, haddr]⟩, ?_⟩
        rw [Bool.not_eq_true', List.any_eq_false]
        intro b hb
        rw [List.mem_filter] at hb
        obtain ⟨hbmem, hbcond⟩ := hb
        simp only [Bool.and_eq_true, List.any_eq_true, decide_eq_true_eq] at hbcond
        obtain ⟨⟨⟨-, hble⟩, hbge⟩, hbact⟩ := hbcond
        by_cases hbr : b.roomId = r.id
        · exact absurd ⟨b, hbmem, hbr, hbact, hble, hbge⟩ hnoov
        · simp [hbr]
  · unfold get_available_rooms
    by_cases he : strTrim address = ""
    · simp [he]
    · rw [if_neg he]
      have hs := @List.sorted_mergeSort Room
        (fun a b : Room => decide (a.price ≤ b.price))
        (fun a b c hab hbc => by
          simp only [decide_eq_true_eq] at *; exact le_trans hab hbc)
        (fun a b => by simp [le_total])
        ((s.rooms.filter fun r =>
            r.isActive && (strLower r.address == strLower (strTrim address))).filter
          fun r => !((s.bookings.filter fun b =>
            (s.rooms.filter fun r2 =>
              r2.isActive && (strLower r2.address == strLower (strTrim address))).any
              (fun r2 => r2.id == b.roomId) &&
            decide (b.checkIn ≤ co) && decide (b.checkOut ≥ ci) &&
            statusActive b.status).any fun b => b.roomId == r.id))
      exact hs.imp (by simp)
  · intro he
    unfold get_available_rooms
    rw [if_pos he]

/-- C2 witnessed: the demo room is returned for destination " Moscow "
(stored address "moscow") on free dates. -/
theorem claim_C2_witness :
    roomX ∈ get_available_rooms cexS0 " Moscow " 20 25 :=
  ((claim_C2 cexS0 " Moscow " 20 25).1 roomX).2
    ⟨by decide, by decide, by decide, by decide, by decide⟩

theorem createBooking_snd_none_iff (s : Store) (today : Int) (guest : User)
    (rid : Nat) (ci co : Int) (bid : Nat) :
    (createBooking s today guest rid ci co bid).2 = none ↔
      ∃ room, findRoomActive s rid = some room ∧ room.ownerId ≠ guest.id ∧
        today ≤ ci ∧ ci < co ∧
        hasConflict s.bookings rid ci co none = false := by
  constructor
  · intro h
    cases hp : createBooking s today guest rid ci co bid with
    | mk fst snd =>
      rw [hp] at h
      subst h
      obtain ⟨room, h1, h2, h3, h4, h5, -⟩ := createBooking_ok hp
      exact ⟨room, h1, h2, h3, h4, h5⟩
  · rintro ⟨room, h1, h2, h3, h4, h5⟩
    unfold createBooking
    simp only [h1]
    rw [if_neg (by simpa using h2), if_neg (by simp; omega),
      if_neg (by simp; omega), if_neg (by simp [h5])]

/-- C3: `createBooking` is rejected iff the room is inactive or nonexistent,
the dates are invalid (check-in not before check-out, or in the past), the
guest owns the room, or a Pending/Confirmed booking overlaps the range; and
a rejected request leaves the store untouched. -/
theorem claim_C3 (s : Store) (today : Int) (guest : User) (rid : Nat)
    (ci co : Int) (bid : Nat) :
    ((createBooking s today guest rid ci co bid).2 ≠ none ↔
      (findRoomActive s rid = none ∨
        (∃ room, findRoomActive s rid = some room ∧ room.ownerId = guest.id) ∨
        ci ≥ co ∨ ci < today ∨
        hasConflict s.bookings rid ci co none = true)) ∧
    ((createBooking s today guest rid ci co bid).2 ≠ none →
      (createBooking s today guest rid ci co bid).1 = s) := by
  constructor
  · rw [Ne, createBooking_snd_none_iff]
    constructor
    · intro h
      cases hfind : findRoomActive s rid with
      | none => exact Or.inl rfl
      | some room =>
        right
        by_cases ho : room.ownerId = guest.id
        · exact Or.inl ⟨room, rfl, ho⟩
        right
        by_cases hord : ci ≥ co
        · exact Or.inl hord
        right
        by_cases hpast : ci < today
        · exact Or.inl hpast
        right
        by_cases hc : hasConflict s.bookings rid ci co none = true
        · exact hc
        · exact absurd ⟨room, hfind, ho, by omega, by omega, by simpa using hc⟩ h
    · rintro (hf | ⟨room2, hf2, ho2⟩ | hord | hpast | hc) ⟨room, h1, h2, h3, h4, h5⟩
      · rw [h1] at hf; cases hf
      · rw [h1] at hf2
        cases hf2
        exact h2 ho2
      · omega
      · omega
      · rw [h5] at hc; cases hc
  · intro hne
    cases hp : createBooking s today guest rid ci co bid with
    | mk fst snd =>
      rw [hp] at hne
      cases snd with
      | none => exact absurd rfl hne
      | some r => exact createBooking_fail hp

/-- C3 witnessed: the owner booking their own room is rejected even with
valid dates (the self-booking condition alone causes rejection). -/
theorem claim_C3_witness :
    (createBooking cexS0 0 uOwner 10 1 5 1).2 ≠ none :=
  (claim_C3 cexS0 0 uOwner 10 1 5 1).1.2
    (Or.inr (Or.inl ⟨roomX, rfl, rfl⟩))

/-- C4: a successful `createBooking` appends exactly one Pending booking
with `total_cost = price_per_night * (check_out - check_in)` and one history
record with blank old status, new status Pending and actor SYSTEM. -/
theorem claim_C4 (s : Store) (today : Int) (guest : User) (rid : Nat)
    (ci co : Int) (bid : Nat) (room : Room) (s' : Store)
    (hroom : findRoomActive s rid = some room)
    (h : createBooking s today guest rid ci co bid = (s', none)) :
    s'.bookings = s.bookings ++
      [⟨bid, guest.id, rid, ci, co, BStatus.Pending,
        room.price * ((co - ci : Int) : Rat)⟩] ∧
    s'.history = s.history ++
      [⟨bid, none, BStatus.Pending, "SYSTEM", ChangeDesc.created⟩] := by
  obtain ⟨room2, h1, -, -, -, -, hs'⟩ := createBooking_ok h
  rw [hroom] at h1
  cases h1
  subst hs'
  exact ⟨rfl, rfl⟩

/-- Room priced 1000 per night for the C4 scenario. -/
def roomP : Room := ⟨20, 2, 1000, "moscow", true⟩

/-- Initial store for the C4 scenario. -/
def c4S0 : Store := ⟨[roomP], [], [], []⟩

/-- Store after booking the 1000-per-night room for days 1..4. -/
def c4S1 : Store := (createBooking c4S0 0 uGuest 20 1 4 1).1

/-- C4 witnessed on the spec scenario: 1000 per night, days 1..4 (three
nights), yields a Pending booking of total cost 3000 and the SYSTEM history
record. -/
theorem claim_C4_witness :
    c4S1.bookings = [⟨1, 1, 20, 1, 4, BStatus.Pending, 3000⟩] ∧
    c4S1.history = [⟨1, none, BStatus.Pending, "SYSTEM", ChangeDesc.created⟩] := by
  have h := claim_C4 c4S0 0 uGuest 20 1 4 1 roomP c4S1 rfl rfl
  refine ⟨?_, by simpa [c4S0] using h.2⟩
  rw [h.1]
  norm_num [c4S0, roomP, uGuest]

theorem updateBookingDates_fail {s : Store} {today : Int} {actor : User}
    {bid : Nat} {ci co : Int} {s' : Store} {r : Reason}
    (h : updateBookingDates s today actor bid ci co = (s', some r)) :
    s' = s := by
  unfold updateBookingDates at h
  cases hfind : findGuestBooking s bid actor.id with
  | none => simp only [hfind, Prod.mk.injEq] at h; exact h.1.symm
  | some b =>
    simp only [hfind] at h
    split_ifs at h <;>
      first
        | (simp only [Prod.mk.injEq] at h; exact h.1.symm)
        | (cases hroom : findRoom s b.roomId <;>
            simp only [hroom, Prod.mk.injEq] at h <;>
            first | exact h.1.symm | simp at h)

/-- C5: `update_booking_view` is reachable only by the booking's guest (any
other booking id / actor pair 404s), re-runs the date validation and the
conflict scan excluding the booking's own id, and either rejects leaving the
store untouched or updates check-in, check-out and recomputed total cost in
one step together with the old-cost-to-new-cost history description. -/
theorem claim_C5 (s : Store) (today : Int) (actor : User) (bid : Nat)
    (ci co : Int) :
    (findGuestBooking s bid actor.id = none →
      updateBookingDates s today actor bid ci co = (s, some Reason.notFound)) ∧
    (∀ r, (updateBookingDates s today actor bid ci co).2 = some r →
      (updateBookingDates s today actor bid ci co).1 = s) ∧
    (∀ b room s',
      findGuestBooking s bid actor.id = some b →
      findRoom s b.roomId = some room →
      updateBookingDates s today actor bid ci co = (s', none) →
      today ≤ ci ∧ ci < co ∧
      hasConflict s.bookings b.roomId ci co (some bid) = false ∧
      s'.bookings = saveBooking s.bookings bid
        { b with checkIn := ci, checkOut := co,
                 totalCost := room.price * ((co - ci : Int) : Rat) } ∧
      s'.history = histTouchDates s.history bid b.status (displayName actor)
        b.totalCost (room.price * ((co - ci : Int) : Rat)) ∧
      s'.rooms = s.rooms ∧ s'.reviews = s.reviews) := by
  refine ⟨?_, ?_, ?_⟩
  · intro hnone
    unfold updateBookingDates
    simp only [hnone]
  · intro r h
    cases hp : updateBookingDates s today actor bid ci co with
    | mk fst snd =>
      rw [hp] at h
      subst h
      exact updateBookingDates_fail hp
  · intro b room s' hfind hroom h
    obtain ⟨b2, room2, hf2, h3, h4, h5, hr2, hs'⟩ := updateBookingDates_ok h
    rw [hfind] at hf2
    cases hf2
    rw [hroom] at hr2
    cases hr2
    subst hs'
    exact ⟨h3, h4, h5, rfl, rfl, rfl, rfl⟩

/-- Store after the guest moves the days-1..5 booking to days 2..7. -/
def c5S1 : Store := (updateBookingDates cexS1 0 uGuest 1 2 7).1

/-- C5 witnessed: moving the demo booking from days 1..5 to days 2..7
updates dates and cost together and rewrites the history description. -/
theorem claim_C5_witness :
    (0 : Int) ≤ 2 ∧ (2 : Int) < 7 ∧
    hasConflict cexS1.bookings 10 2 7 (some 1) = false ∧
    c5S1.bookings = saveBooking cexS1.bookings 1
      ⟨1, 1, 10, 2, 7, BStatus.Pending, roomX.price * ((7 - 2 : Int) : Rat)⟩ ∧
    c5S1.history = histTouchDates cexS1.history 1 BStatus.Pending
      (displayName uGuest) (roomX.price * ((5 - 1 : Int) : Rat))
      (roomX.price * ((7 - 2 : Int) : Rat)) ∧
    c5S1.rooms = cexS1.rooms ∧ c5S1.reviews = cexS1.reviews :=
  (claim_C5 cexS1 0 uGuest 1 2 7).2.2
    ⟨1, 1, 10, 1, 5, BStatus.Pending, roomX.price * ((5 - 1 : Int) : Rat)⟩
    roomX c5S1 rfl rfl rfl

theorem cancelBooking_keeps_ids (s : Store) (actor : User) (bid : Nat) :
    (cancelBooking s actor bid).1.bookings.map (fun b => b.id) =
      s.bookings.map (fun b => b.id) := by
  unfold cancelBooking
  cases hfind : findGuestBooking s bid actor.id with
  | none => rfl
  | some b =>
    obtain ⟨-, hbid, -⟩ := findGuestBooking_spec hfind
    simp only [saveBooking, List.map_map]
    apply List.map_congr_left
    intro a ha
    by_cases h : a.id = bid
    · simp [h, hbid]
    · simp [h]

/-- C7: guest-side deletion (`BookingDeleteView`) is permitted only for the
booking's guest, is a status transition to Cancelled with the history row
updated (old status, new status Cancelled, actor display name), and the set
of booking primary keys is never changed: no physical delete. -/
theorem claim_C7 (s : Store) (actor : User) (bid : Nat) :
    (findGuestBooking s bid actor.id = none →
      cancelBooking s actor bid = (s, some Reason.notFound)) ∧
    (∀ b, findGuestBooking s bid actor.id = some b →
      cancelBooking s actor bid =
        ({ s with
            bookings := saveBooking s.bookings bid
              { b with status := BStatus.Cancelled },
            history := histUpdateOrCreate s.history bid
              ⟨bid, some b.status, BStatus.Cancelled, displayName actor,
                ChangeDesc.cancelledDesc⟩ }, none)) ∧
    ((cancelBooking s actor bid).1.bookings.map (fun b => b.id) =
      s.bookings.map (fun b => b.id)) := by
  refine ⟨?_, ?_, cancelBooking_keeps_ids s actor bid⟩
  · intro hnone
    unfold cancelBooking
    simp only [hnone]
  · intro b hfind
    unfold cancelBooking
    simp only [hfind]

/-- C7 witnessed: cancelling the demo booking keeps the row and flips its
status to Cancelled, recording the actor display name. -/
theorem claim_C7_witness :
    cancelBooking cexS1 uGuest 1 =
      ({ cexS1 with
          bookings := saveBooking cexS1.bookings 1
            ⟨1, 1, 10, 1, 5, BStatus.Cancelled,
              roomX.price * ((5 - 1 : Int) : Rat)⟩,
          history := histUpdateOrCreate cexS1.history 1
            ⟨1, some BStatus.Pending, BStatus.Cancelled, displayName uGuest,
              ChangeDesc.cancelledDesc⟩ }, none) :=
  (claim_C7 cexS1 uGuest 1).2.1
    ⟨1, 1, 10, 1, 5, BStatus.Pending, roomX.price * ((5 - 1 : Int) : Rat)⟩ rfl

theorem find_saveBooking {bs : List Booking} {bid : Nat} {b b2 : Booking}
    (h : bs.find? (fun x => x.id == bid) = some b) (hb2 : b2.id = bid) :
    (saveBooking bs bid b2).find? (fun x => x.id == bid) = some b2 := by
  induction bs with
  | nil => simp [List.find?] at h
  | cons a t ih =>
    by_cases ha : a.id = bid
    · have hrepl : (if (a.id == bid) = true then b2 else a) = b2 := by simp [ha]
      rw [saveBooking, List.map_cons, hrepl]
      exact List.find?_cons_of_pos _ (by simp [hb2])
    · have hskip : (if (a.id == bid) = true then b2 else a) = a := by simp [ha]
      rw [saveBooking, List.map_cons, hskip]
      rw [List.find?_cons_of_neg _ (by simp [ha])]
      rw [List.find?_cons_of_neg _ (by simp [ha])] at h
      exact ih h

theorem histCount_updateOrCreate {hist : List HistRec} {bid : Nat}
    {rec : HistRec} (hrec : rec.bookingId = bid)
    (h : (hist.filter (fun x => x.bookingId == bid)).length ≤ 1) :
    ((histUpdateOrCreate hist bid rec).filter
        (fun x => x.bookingId == bid)).length = 1 := by
  induction hist with
  | nil => simp [histUpdateOrCreate, List.filter, hrec]
  | cons a t ih =>
    rw [histUpdateOrCreate]
    by_cases ha : a.bookingId = bid
    · have ht : (t.filter (fun x => x.bookingId == bid)).length = 0 := by
        rw [List.filter_cons] at h
        simp only [ha, beq_self_eq_true, if_pos, List.length_cons] at h
        omega
      rw [if_pos (by simpa using ha)]
      rw [List.filter_cons]
      simp [hrec, ht]
    · rw [if_neg (by simpa using ha)]
      rw [List.filter_cons] at h ⊢
      simp only [ha, beq_iff_eq, if_neg] at h ⊢
      exact ih h

/-- C6: confirming a Pending booking twice in a row (each time by the guest
or the room owner) succeeds both times, leaves the booking Confirmed, and —
because the history row is keyed one-to-one by the booking and
`get_or_create` updates it in place — leaves exactly one history record for
the booking, not two. -/
theorem claim_C6 (s : Store) (b : Booking) (room : Room)
    (actor1 actor2 : User) (bid : Nat)
    (hfind : findBooking s bid = some b)
    (_hst : b.status = BStatus.Pending)
    (hroom : findRoom s b.roomId = some room)
    (hauth1 : actor1.id = b.guestId ∨ actor1.id = room.ownerId)
    (hauth2 : actor2.id = b.guestId ∨ actor2.id = room.ownerId)
    (hhist : (s.history.filter (fun h => h.bookingId == bid)).length ≤ 1) :
    ∃ s1 s2 : Store,
      confirmBooking s actor1 bid = (s1, none) ∧
      confirmBooking s1 actor2 bid = (s2, none) ∧
      (∃ b2, findBooking s2 bid = some b2 ∧ b2.status = BStatus.Confirmed) ∧
      (s2.history.filter (fun h => h.bookingId == bid)).length = 1 := by
  have hbid : b.id = bid := (findBooking_spec hfind).2
  have hperm1 : ¬ (b.guestId != actor1.id && room.ownerId != actor1.id) = true := by
    rcases hauth1 with h | h <;> simp [h.symm]
  have hperm2 : ¬ (b.guestId != actor2.id && room.ownerId != actor2.id) = true := by
    rcases hauth2 with h | h <;> simp [h.symm]
  -- first confirmation
  have hc1 : confirmBooking s actor1 bid =
      ({ s with
          bookings := saveBooking s.bookings bid { b with status := BStatus.Confirmed },
          history := histUpdateOrCreate s.history bid
            ⟨bid, some b.status, BStatus.Confirmed, displayName actor1,
              ChangeDesc.confirmedDesc⟩ }, none) := by
    unfold confirmBooking
    simp only [hfind, hroom]
    rw [if_neg hperm1]
  set s1 : Store :=
    { s with
        bookings := saveBooking s.bookings bid { b with status := BStatus.Confirmed },
        history := histUpdateOrCreate s.history bid
          ⟨bid, some b.status, BStatus.Confirmed, displayName actor1,
            ChangeDesc.confirmedDesc⟩ } with hs1
  have hfind1 : findBooking s1 bid = some { b with status := BStatus.Confirmed } := by
    rw [hs1]
    exact find_saveBooking hfind hbid
  have hroom1 : findRoom s1 ({ b with status := BStatus.Confirmed }).roomId = some room := by
    rw [hs1]; exact hroom
  have hc2 : confirmBooking s1 actor2 bid =
      ({ s1 with
          bookings := saveBooking s1.bookings bid
            { b with status := BStatus.Confirmed },
          history := histUpdateOrCreate s1.history bid
            ⟨bid, some BStatus.Confirmed, BStatus.Confirmed, displayName actor2,
              ChangeDesc.confirmedDesc⟩ }, none) := by
    unfold confirmBooking
    simp only [hfind1, hroom1]
    rw [if_neg hperm2]
  refine ⟨s1, _, hc1, hc2, ?_, ?_⟩
  · refine ⟨{ b with status := BStatus.Confirmed }, ?_, rfl⟩
    exact find_saveBooking hfind1 hbid
  · have hcnt1 : (s1.history.filter (fun h => h.bookingId == bid)).length = 1 := by
      rw [hs1]
      exact histCount_updateOrCreate rfl hhist
    exact histCount_updateOrCreate rfl (by omega)

/-- C6 witnessed on the demo store: the guest confirms their Pending
booking twice; one history record remains. -/
theorem claim_C6_witness :
    ∃ s1 s2 : Store,
      confirmBooking cexS1 uGuest 1 = (s1, none) ∧
      confirmBooking s1 uGuest 1 = (s2, none) ∧
      (∃ b2, findBooking s2 1 = some b2 ∧ b2.status = BStatus.Confirmed) ∧
      (s2.history.filter (fun h => h.bookingId == 1)).length = 1 :=
  claim_C6 cexS1
    ⟨1, 1, 10, 1, 5, BStatus.Pending, roomX.price * ((5 - 1 : Int) : Rat)⟩
    roomX uGuest uGuest 1 rfl rfl rfl (Or.inl rfl) (Or.inl rfl) (by decide)

/-- C8: when a review already exists for the booking, a second
`createReview` by the booking's guest is rejected with the user-facing
already-reviewed reason (the store-level IntegrityError is caught and
translated) and the store — in particular the review table — is unchanged. -/
theorem claim_C8 (s : Store) (actor : User) (bid : Nat) (rating : Int)
    (text : String) (newRid : Nat) (b : Booking) (room : Room)
    (hfind : findGuestBooking s bid actor.id = some b)
    (hroom : findRoom s b.roomId = some room)
    (howner : room.ownerId ≠ actor.id)
    (hrat1 : 1 ≤ rating) (hrat2 : rating ≤ 5)
    (hex : ∃ r0 ∈ s.reviews, r0.bookingId = bid) :
    createReview s actor bid rating text newRid =
      (s, some Reason.alreadyReviewed) := by
  have hbid : b.id = bid := (findGuestBooking_spec hfind).2.1
  obtain ⟨r0, hr0mem, hr0⟩ := hex
  unfold createReview
  simp only [hfind, hroom]
  rw [if_neg (by simpa using howner),
    if_neg (by simp; omega),
    if_pos (by
      rw [List.any_eq_true]
      exact ⟨r0, hr0mem, by simp [hr0, hbid]⟩)]

/-- Demo booking for the review claims. -/
def c8Booking : Booking := ⟨1, 1, 10, 1, 5, BStatus.Pending, 400⟩

/-- Existing review for `c8Booking`. -/
def c8Review : Review := ⟨1, 1, 1, 10, 5, "good", RStatus.pending⟩

/-- Store in which `c8Booking` is already reviewed. -/
def c8Store : Store := ⟨[roomX], [c8Booking], [], [c8Review]⟩

/-- C8 witnessed: re-reviewing the already-reviewed booking is rejected and
adds no row. -/
theorem claim_C8_witness :
    createReview c8Store uGuest 1 4 "again" 2 =
      (c8Store, some Reason.alreadyReviewed) :=
  claim_C8 c8Store uGuest 1 4 "again" 2 c8Booking roomX rfl rfl
    (by decide) (by decide) (by decide) ⟨c8Review, by decide, rfl⟩

/-- The part of the C9 visibility claim that fails on the code: "a guest
sees all of their own reviews in any status". -/
def guestSeesOwnReviewsClaim : Prop :=
  ∀ (s : Store) (u : User), ∀ r ∈ s.reviews, r.guestId = u.id →
    r ∈ reviewListQuery s (some u) none

/-- A room owned by the demo guest, making them an owner-viewer. -/
def c9RoomOwn : Room := ⟨30, 1, 150, "kazan", true⟩

/-- A pending review written by the demo guest on somebody else's room. -/
def c9Review : Review := ⟨1, 7, 1, 10, 5, "", RStatus.pending⟩

/-- Store for the C9 counterexample. -/
def c9Store : Store := ⟨[c9RoomOwn, roomX], [], [], [c9Review]⟩

/-- C9 counterexample: a guest who also owns a room falls into the
owner branch of `ReviewListView.get_queryset` and is shown only reviews on
their own rooms, so their own authored review on another room is missing —
refuting the claim that a guest sees all of their own reviews. -/
theorem claim_C9_counterexample : ¬ guestSeesOwnReviewsClaim := by
  intro h
  have hbad := h c9Store uGuest c9Review (by decide) rfl
  revert hbad
  decide

/-- C9 amended: the review-list query returns exactly the Approved reviews
to anonymous viewers; exactly the reviews on the viewer's rooms (any
status) to a viewer owning at least one room; exactly the viewer's own
reviews (any status) to an authenticated viewer owning no room; and with a
room parameter, exactly the Approved reviews of that room for any viewer. -/
theorem claim_C9_amended (s : Store) (r : Review) :
    (r ∈ reviewListQuery s none none ↔
      r ∈ s.reviews ∧ r.status = RStatus.approved) ∧
    (∀ u : User, isOwnerUser s u.id = true →
      (r ∈ reviewListQuery s (some u) none ↔
        r ∈ s.reviews ∧ reviewRoomOwnedBy s r u.id = true)) ∧
    (∀ u : User, isOwnerUser s u.id = false →
      (r ∈ reviewListQuery s (some u) none ↔
        r ∈ s.reviews ∧ r.guestId = u.id)) ∧
    (∀ (viewer : Option User) (rid : Nat),
      r ∈ reviewListQuery s viewer (some rid) ↔
        r ∈ s.reviews ∧ r.roomId = rid ∧ r.status = RStatus.approved) := by
  refine ⟨?_, ?_, ?_, ?_⟩
  · unfold reviewListQuery
    rw [List.mem_filter]
    simp
  · intro u hu
    rw [show reviewListQuery s (some u) none =
      (if isOwnerUser s u.id then
        s.reviews.filter (fun r => reviewRoomOwnedBy s r u.id)
      else s.reviews.filter (fun r => r.guestId == u.id)) from rfl]
    rw [if_pos hu, List.mem_filter]
  · intro u hu
    rw [show reviewListQuery s (some u) none =
      (if isOwnerUser s u.id then
        s.reviews.filter (fun r => reviewRoomOwnedBy s r u.id)
      else s.reviews.filter (fun r => r.guestId == u.id)) from rfl]
    rw [if_neg (by simp [hu]), List.mem_filter]
    simp
  · intro viewer rid
    unfold reviewListQuery
    rw [List.mem_filter]
    simp [and_assoc]

/-- Approved review used by the C9 witness. -/
def c9wReview : Review := ⟨2, 8, 3, 10, 4, "nice", RStatus.approved⟩

/-- Store holding one pending and one approved review. -/
def c9wStore : Store := ⟨[roomX], [], [], [c9Review, c9wReview]⟩

/-- C9 amended witnessed: an anonymous viewer sees the approved review and
not the pending one. -/
theorem claim_C9_amended_witness :
    (c9wReview ∈ reviewListQuery c9wStore none none) ∧
    (c9Review ∉ reviewListQuery c9wStore none none) :=
  ⟨((claim_C9_amended c9wStore c9wReview).1).2 ⟨by decide, rfl⟩,
   fun hmem => by
    have := ((claim_C9_amended c9wStore c9Review).1).1 hmem
    exact absurd this.2 (by decide)⟩

/-- At most one review row per guest (the `guest` OneToOneField). -/
def atMostOnePerGuest (rs : List Review) : Prop :=
  rs.Pairwise (fun a b => a.guestId ≠ b.guestId)

/-- At most one review row per room (the `room` OneToOneField). -/
def atMostOnePerRoom (rs : List Review) : Prop :=
  rs.Pairwise (fun a b => a.roomId ≠ b.roomId)

theorem createReview_ok {s : Store} {actor : User} {bid : Nat} {rating : Int}
    {text : String} {newRid : Nat} {s' : Store}
    (h : createReview s actor bid rating text newRid = (s', none)) :
    ∃ b room, findGuestBooking s bid actor.id = some b ∧
      findRoom s b.roomId = some room ∧ room.ownerId ≠ actor.id ∧
      (s.reviews.any (fun r =>
        r.bookingId == b.id || r.guestId == actor.id ||
        r.roomId == room.id)) = false ∧
      s' = { s with reviews := s.reviews ++
        [⟨newRid, b.id, actor.id, room.id, rating, text,
          RStatus.pending⟩] } := by
  unfold createReview at h
  cases hfind : findGuestBooking s bid actor.id with
  | none => simp only [hfind] at h; simp at h
  | some b =>
    simp only [hfind] at h
    cases hroom : findRoom s b.roomId with
    | none => simp only [hroom] at h; simp at h
    | some room =>
      simp only [hroom] at h
      by_cases ho : (room.ownerId == actor.id) = true
      · rw [if_pos ho] at h; simp at h
      · rw [if_neg ho] at h
        by_cases hr : (decide (rating < 1) || decide (rating > 5)) = true
        · rw [if_pos hr] at h; simp at h
        · rw [if_neg hr] at h
          by_cases hex : (s.reviews.any (fun r =>
              r.bookingId == b.id || r.guestId == actor.id ||
              r.roomId == room.id)) = true
          · rw [if_pos hex] at h; simp at h
          · rw [if_neg hex] at h
            simp only [Prod.mk.injEq] at h
            exact ⟨b, room, rfl, hroom, by simpa using ho,
              by simpa using hex, h.1.symm⟩

theorem reviews_preserved_by_booking_ops {s s' : Store} :
    (∀ (today : Int) (guest : User) (rid : Nat) (ci co : Int) (bid : Nat),
      createBooking s today guest rid ci co bid = (s', none) →
      s'.reviews = s.reviews) ∧
    (∀ (actor : User) (bid : Nat),
      confirmBooking s actor bid = (s', none) → s'.reviews = s.reviews) ∧
    (∀ (actor : User) (bid : Nat),
      cancelBooking s actor bid = (s', none) → s'.reviews = s.reviews) ∧
    (∀ (today : Int) (actor : User) (bid : Nat) (ci co : Int),
      updateBookingDates s today actor bid ci co = (s', none) →
      s'.reviews = s.reviews) := by
  refine ⟨?_, ?_, ?_, ?_⟩
  · intro today guest rid ci co bid h
    obtain ⟨_, _, _, _, _, _, hs'⟩ := createBooking_ok h
    rw [hs']
  · intro actor bid h
    obtain ⟨_, _, _, _, _, hs'⟩ := confirmBooking_ok h
    rw [hs']
  · intro actor bid h
    obtain ⟨_, _, hs'⟩ := cancelBooking_ok h
    rw [hs']
  · intro today actor bid ci co h
    obtain ⟨_, _, _, _, _, _, _, hs'⟩ := updateBookingDates_ok h
    rw [hs']

theorem reachable_review_unique {s : Store} (h : Reachable s) :
    atMostOnePerGuest s.reviews ∧ atMostOnePerRoom s.reviews := by
  induction h with
  | init rooms => exact ⟨List.Pairwise.nil, List.Pairwise.nil⟩
  | createStep today guest rid ci co bid hr hop ih =>
    rwa [(reviews_preserved_by_booking_ops.1) today guest rid ci co bid hop]
  | confirmStep actor bid hr hop ih =>
    rwa [(reviews_preserved_by_booking_ops.2.1) actor bid hop]
  | cancelStep actor bid hr hop ih =>
    rwa [(reviews_preserved_by_booking_ops.2.2.1) actor bid hop]
  | updateStep today actor bid ci co hr hop ih =>
    rwa [(reviews_preserved_by_booking_ops.2.2.2) today actor bid ci co hop]
  | reviewStep actor bid rating text rvid hr hop ih =>
    obtain ⟨b, room, _, _, _, hnone, hs'⟩ := createReview_ok hop
    subst hs'
    rw [List.any_eq_false] at hnone
    constructor
    · rw [atMostOnePerGuest, List.pairwise_append]
      refine ⟨ih.1, List.pairwise_singleton _ _, ?_⟩
      intro a ha a2 ha2
      rw [List.mem_singleton] at ha2
      subst ha2
      have := hnone a ha
      simp only [Bool.or_eq_true, beq_iff_eq, not_or] at this
      simpa using this.1.2
    · rw [atMostOnePerRoom, List.pairwise_append]
      refine ⟨ih.2, List.pairwise_singleton _ _, ?_⟩
      intro a ha a2 ha2
      rw [List.mem_singleton] at ha2
      subst ha2
      have := hnone a ha
      simp only [Bool.or_eq_true, beq_iff_eq, not_or] at this
      simpa using this.2

/-- C10: because `Review.guest` and `Review.room` are OneToOneFields, every
reachable store has at most one review per guest and at most one review per
room; and a guest's second review — even for a different booking on a
different room — is rejected with the already-reviewed conflict. -/
theorem claim_C10 :
    (∀ s : Store, Reachable s →
      atMostOnePerGuest s.reviews ∧ atMostOnePerRoom s.reviews) ∧
    (∀ (s : Store) (actor : User) (bid : Nat) (rating : Int) (text : String)
        (newRid : Nat) (b : Booking) (room : Room) (r0 : Review),
      findGuestBooking s bid actor.id = some b →
      findRoom s b.roomId = some room →
      room.ownerId ≠ actor.id →
      1 ≤ rating → rating ≤ 5 →
      r0 ∈ s.reviews → r0.guestId = actor.id →
      createReview s actor bid rating text newRid =
        (s, some Reason.alreadyReviewed)) := by
  refine ⟨fun s h => reachable_review_unique h, ?_⟩
  intro s actor bid rating text newRid b room r0 hfind hroom howner hr1 hr2
    hr0mem hr0guest
  unfold createReview
  simp only [hfind, hroom]
  rw [if_neg (by simpa using howner),
    if_neg (by simp; omega),
    if_pos (by
      rw [List.any_eq_true]
      exact ⟨r0, hr0mem, by simp [hr0guest]⟩)]

/-- A second room (different from the reviewed one). -/
def c10RoomY : Room := ⟨11, 2, 200, "moscow", true⟩

/-- A second booking by the same guest on the second room. -/
def c10Booking2 : Booking := ⟨2, 1, 11, 8, 9, BStatus.Pending, 200⟩

/-- Store where the guest already reviewed room 10 via booking 1. -/
def c10Store : Store :=
  ⟨[roomX, c10RoomY], [c8Booking, c10Booking2], [], [c8Review]⟩

/-- C10 witnessed: the empty reachable store satisfies the uniqueness
invariants, and the guest's second review for a different booking of a
different room is rejected. -/
theorem claim_C10_witness :
    (atMostOnePerGuest (⟨[roomX], [], [], []⟩ : Store).reviews ∧
      atMostOnePerRoom (⟨[roomX], [], [], []⟩ : Store).reviews) ∧
    createReview c10Store uGuest 2 4 "second" 9 =
      (c10Store, some Reason.alreadyReviewed) :=
  ⟨claim_C10.1 ⟨[roomX], [], [], []⟩ (Reachable.init [roomX]),
   claim_C10.2 c10Store uGuest 2 4 "second" 9 c10Booking2 c10RoomY c8Review
     rfl rfl (by decide) (by decide) (by decide) (by decide) rfl⟩
